import Mathlib

/-!
Verification of the cross-ecosystem release orchestrator
(`src/autopub_bun/__init__.py`): the `BunPlugin` (package.json / bun) and
`UvMonorepoPlugin` (pyproject.toml / uv) autopub plugins.

The Python code is shallowly embedded: manifests are association lists
(Python dicts / tomlkit documents preserve key order; a key assignment
replaces the value in place for an existing key and appends a new key at
the end), exceptions are an explicit `Err` sum carried by `Except`, and
external process invocations are parameterised by their observable result.
-/

set_option autoImplicit false

/-- The exceptions that can cross the boundaries of the embedded code.
`keyError`, `typeError`, `attributeError`, `valueError`, `assertionError`
and `fileNotFoundError` are the Python built-ins; `calledProcessError` is
`subprocess.CalledProcessError` (raised by `subprocess.run(check=True)`);
`commandFailed` is `autopub.exceptions.CommandFailed`.
`versionFieldNotFound` and `invalidReleaseType` are the error kinds named
by the specification; they are included so that statements can compare the
errors the code actually raises against them. -/
inductive Err where
  | keyError (key : String)
  | typeError
  | attributeError
  | valueError (msg : String)
  | assertionError
  | fileNotFoundError (exe : String)
  | calledProcessError (argv : List String) (returncode : Int)
  | commandFailed (argv : List String) (returncode : Int)
  | versionFieldNotFound
  | invalidReleaseType
  deriving DecidableEq

/-- Association-list lookup: Python `d[k]` on a dict with string keys
(keys are unique, so first match is the match). -/
def getK {α : Type} : List (String × α) → String → Option α
  | [], _ => none
  | (k, v) :: rest, key => if k = key then some v else getK rest key

/-- Association-list update: Python `d[k] = v` — replaces the value of an
existing key in place (keeping its position) and appends a fresh key. -/
def setK {α : Type} : List (String × α) → String → α → List (String × α)
  | [], key, v => [(key, v)]
  | (k, w) :: rest, key, v =>
    if k = key then (key, v) :: rest else (k, w) :: setK rest key v

theorem getK_setK_same {α : Type} (l : List (String × α)) (k : String) (v : α) :
    getK (setK l k v) k = some v := by
  induction l with
  | nil => simp [getK, setK]
  | cons hd tl ih =>
    obtain ⟨k', w⟩ := hd
    by_cases h : k' = k <;> simp [getK, setK, h, ih]

theorem getK_setK_diff {α : Type} (l : List (String × α)) (k k' : String) (v : α)
    (h : k' ≠ k) : getK (setK l k v) k' = getK l k' := by
  induction l with
  | nil =>
    simp only [setK, getK, if_neg (fun hh : k = k' => h hh.symm)]
  | cons hd tl ih =>
    obtain ⟨k₀, w⟩ := hd
    simp only [setK]
    by_cases h0 : k₀ = k
    · subst h0
      rw [if_pos rfl]
      simp only [getK, if_neg (fun hh : k₀ = k' => h hh.symm)]
    · rw [if_neg h0]
      simp only [getK, ih]

/-- A tomlkit document value: a string scalar, an integer scalar, or a
table (inner tables and the top-level document alike). The claims under
verification only ever place strings, integers and tables in manifests. -/
inductive TomlValue where
  | str (s : String)
  | int (n : Int)
  | table (kvs : List (String × TomlValue))

/-- The top-level pyproject.toml document. -/
abbrev Table := List (String × TomlValue)

/-- Python subscription `v[key]`: on a table it is dict lookup, raising
`KeyError(key)` when the key is missing; on a string or integer scalar it
raises `TypeError` (string/int objects are not subscriptable by string
keys). -/
def tomlIndex (v : TomlValue) (key : String) : Except Err TomlValue :=
  match v with
  | .table kvs =>
    match getK kvs key with
    | some x => .ok x
    | none => .error (.keyError key)
  | _ => .error .typeError

/-- Chained subscription `v[k₁][k₂]…`, failing at the first step that
raises. -/
def lookupChain (v : TomlValue) : List String → Except Err TomlValue
  | [] => .ok v
  | k :: ks =>
    match tomlIndex v k with
    | .ok x => lookupChain x ks
    | .error e => .error e

/-- Pure path lookup through tables (used only in statements, to speak
about what a document holds at a path). -/
def getPath : TomlValue → List String → Option TomlValue
  | v, [] => some v
  | .table kvs, k :: ks =>
    match getK kvs k with
    | some v => getPath v ks
    | none => none
  | _, _ :: _ => none

/-- `UvMonorepoPlugin._get_version`:
`try: return config["tool"]["poetry"]["version"] except KeyError: return
config["project"]["version"]`. Only `KeyError` is caught by the fallback;
a `TypeError` (subscripting a scalar) propagates, and so does any error of
the fallback lookup itself. -/
def UvMonorepoPlugin.get_version (config : Table) : Except Err TomlValue :=
  match lookupChain (.table config) ["tool", "poetry", "version"] with
  | .ok v => .ok v
  | .error (.keyError _) => lookupChain (.table config) ["project", "version"]
  | .error e => .error e

/-- Fallback branch of `UvMonorepoPlugin._update_version`:
`config["project"]["version"] = new_version`. The `config["project"]`
lookup may raise `KeyError` (now uncaught) or `TypeError`; the final item
assignment raises `TypeError` on a non-table. -/
def UvMonorepoPlugin.update_version_fallback (config : Table) (newV : String) :
    Except Err Table :=
  match getK config "project" with
  | some (.table p) => .ok (setK config "project" (.table (setK p "version" (.str newV))))
  | some _ => .error .typeError
  | none => .error (.keyError "project")

/-- `UvMonorepoPlugin._update_version`:
`try: config["tool"]["poetry"]["version"] = new_version except KeyError:
config["project"]["version"] = new_version`. The `try` branch evaluates
`config["tool"]["poetry"]` (each step can raise `KeyError`, caught, or
`TypeError`, not caught) and then item-assigns `"version"`, which always
succeeds on a table — also when the `version` key does not exist yet — and
raises `TypeError` on a scalar. -/
def UvMonorepoPlugin.update_version (config : Table) (newV : String) :
    Except Err Table :=
  match getK config "tool" with
  | some (.table t) =>
    match getK t "poetry" with
    | some (.table p) =>
      .ok (setK config "tool"
        (.table (setK t "poetry" (.table (setK p "version" (.str newV))))))
    | some _ => .error .typeError
    | none => UvMonorepoPlugin.update_version_fallback config newV
  | some _ => .error .typeError
  | none => UvMonorepoPlugin.update_version_fallback config newV

/-- `UvMonorepoPlugin._get_package_name`:
`try: return config["tool"]["poetry"]["name"] except KeyError: try:
return config["project"]["name"] except KeyError: return None`. -/
def UvMonorepoPlugin.get_package_name (config : Table) :
    Except Err (Option TomlValue) :=
  match lookupChain (.table config) ["tool", "poetry", "name"] with
  | .ok v => .ok (some v)
  | .error (.keyError _) =>
    match lookupChain (.table config) ["project", "name"] with
    | .ok v => .ok (some v)
    | .error (.keyError _) => .ok none
    | .error e => .error e
  | .error e => .error e

/-- The bump-kind dictionary `{"major": 0, "minor": 1, "patch": 2}`;
`none` models the `KeyError` a lookup of any other key raises. -/
def bump_table (k : String) : Option Nat :=
  if k = "major" then some 0
  else if k = "minor" then some 1
  else if k = "patch" then some 2
  else none

/-- A parsed `major.minor.patch` semantic version (the base triple that
`dunamai.Version` exposes for bumping). -/
structure SemVer where
  major : Nat
  minor : Nat
  patch : Nat
  deriving DecidableEq

/-- `dunamai.Version.bump(index)` on a three-part base: increment the
component at `index` and reset the following components to zero. -/
def bumpAt (v : SemVer) : Nat → SemVer
  | 0 => ⟨v.major + 1, 0, 0⟩
  | 1 => ⟨v.major, v.minor + 1, 0⟩
  | _ => ⟨v.major, v.minor, v.patch + 1⟩

/-- Split a character list on the dot separator (`str.split(".")`). -/
def splitOnDot : List Char → List (List Char)
  | [] => [[]]
  | c :: rest =>
    if c = '.' then [] :: splitOnDot rest
    else
      match splitOnDot rest with
      | [] => [[c]]
      | g :: gs => (c :: g) :: gs

/-- Decimal digit accumulation. -/
def digitsToNatAux (acc : Nat) : List Char → Option Nat
  | [] => some acc
  | c :: rest =>
    if c.isDigit then digitsToNatAux (acc * 10 + (c.toNat - 48)) rest else none

/-- A non-empty all-digit character list as a natural number. -/
def digitsToNat (l : List Char) : Option Nat :=
  match l with
  | [] => none
  | _ => digitsToNatAux 0 l

/-- Parse a plain `major.minor.patch` version string, as `dunamai.Version`
does for the valid inputs the claims quantify over; anything else is a
parse failure (dunamai raises `ValueError`). -/
def parseSemVer (s : String) : Option SemVer :=
  match splitOnDot s.toList with
  | [a, b, c] =>
    match digitsToNat a, digitsToNat b, digitsToNat c with
    | some x, some y, some z => some ⟨x, y, z⟩
    | _, _, _ => none
  | _ => none

/-- `Version.serialize()` / `str(Version(...))` for a plain
`major.minor.patch` version. -/
def serializeSemVer (v : SemVer) : String :=
  Nat.repr v.major ++ "." ++ Nat.repr v.minor ++ "." ++ Nat.repr v.patch

/-- Strict semantic-version ordering on parsed versions
(lexicographic on major, minor, patch). -/
def semVerLt (a b : SemVer) : Prop :=
  a.major < b.major ∨
    (a.major = b.major ∧
      (a.minor < b.minor ∨ (a.minor = b.minor ∧ a.patch < b.patch)))

/-- `UvMonorepoPlugin.post_check` on an already-read `config`: look the
release type up in the bump dictionary (a `KeyError` for unknown kinds),
read the current version via `_get_version`, parse it with dunamai, and
produce `(previous_version, version)` — the two `release_info` fields it
sets. It performs no file write. -/
def UvMonorepoPlugin.post_check (config : Table) (release_type : String) :
    Except Err (String × String) :=
  match bump_table release_type with
  | none => .error (.keyError release_type)
  | some i =>
    match UvMonorepoPlugin.get_version config with
    | .error e => .error e
    | .ok (.str s) =>
      match parseSemVer s with
      | none => .error (.valueError s)
      | some ver => .ok (serializeSemVer ver, serializeSemVer (bumpAt ver i))
    | .ok _ => .error .typeError

/-- A JSON value as parsed from package.json (`json.loads`): Python dicts
keep insertion order, so objects are association lists. -/
inductive Json where
  | str (s : String)
  | num (n : Int)
  | boolean (b : Bool)
  | null
  | arr (xs : List Json)
  | obj (kvs : List (String × Json))

/-- JSON string escaping as `json.dumps` performs it for the characters
that can occur in the manifests under verification (the `\uXXXX` escaping
of other control characters and — under `ensure_ascii` — of non-ASCII
characters is not needed by any claim and is left out). -/
def escapeChar (c : Char) : String :=
  if c = '"' then "\\\""
  else if c = '\\' then "\\\\"
  else if c = '\n' then "\\n"
  else if c = '\t' then "\\t"
  else if c = '\r' then "\\r"
  else String.singleton c

/-- A JSON-quoted string. -/
def escapeString (s : String) : String :=
  "\"" ++ String.join (s.toList.map escapeChar) ++ "\""

/-- The `indent=2` indentation prefix at nesting level `lvl`. -/
def indentStr (lvl : Nat) : String :=
  String.mk (List.replicate (2 * lvl) ' ')

mutual

/-- `json.dumps(value, indent=2)`: objects and arrays open on their own
line, every item sits on its own line indented two further spaces, and the
closing bracket returns to the enclosing indentation; empty containers
print inline; the item separator is `,` and the key separator `: `. -/
def dumpsVal : Nat → Json → String
  | _, .str s => escapeString s
  | _, .num n => toString n
  | _, .boolean true => "true"
  | _, .boolean false => "false"
  | _, .null => "null"
  | _, .arr [] => "[]"
  | lvl, .arr (x :: xs) =>
    "[\n" ++ dumpsArrItems (lvl + 1) x xs ++ "\n" ++ indentStr lvl ++ "]"
  | _, .obj [] => "\x7b\x7d"
  | lvl, .obj (kv :: kvs) =>
    "\x7b\n" ++ dumpsObjItems (lvl + 1) kv kvs ++ "\n" ++ indentStr lvl ++ "\x7d"
termination_by _ j => sizeOf j

/-- One-per-line serialization of the items of a non-empty JSON array. -/
def dumpsArrItems : Nat → Json → List Json → String
  | lvl, x, [] => indentStr lvl ++ dumpsVal lvl x
  | lvl, x, y :: ys =>
    indentStr lvl ++ dumpsVal lvl x ++ ",\n" ++ dumpsArrItems lvl y ys
termination_by _ x rest => 1 + sizeOf x + sizeOf rest

/-- One-per-line serialization of the entries of a non-empty JSON object. -/
def dumpsObjItems : Nat → (String × Json) → List (String × Json) → String
  | lvl, (k, v), [] => indentStr lvl ++ escapeString k ++ ": " ++ dumpsVal lvl v
  | lvl, (k, v), y :: ys =>
    indentStr lvl ++ escapeString k ++ ": " ++ dumpsVal lvl v ++ ",\n" ++
      dumpsObjItems lvl y ys
termination_by _ kv rest => 1 + sizeOf kv + sizeOf rest

end

/-- `json.dumps(package, indent=2)` for the top-level package.json object. -/
def dumpsTop (pkg : List (String × Json)) : String :=
  dumpsVal 0 (.obj pkg)

/-- The on-disk state of package.json: the parsed document together with
the file's text. All writes the plugin performs go through
`json.dumps(..., indent=2) + "\n"`, so after a write `text` is that
serialization of `doc`. -/
structure BunFs where
  packageJson : List (String × Json)
  text : String

/-- `BunPlugin._get_version`: `self.package_json["version"]` — dict lookup
on the parsed document, `KeyError` when absent. -/
def BunPlugin.get_version (pkg : List (String × Json)) : Except Err Json :=
  match getK pkg "version" with
  | some v => .ok v
  | none => .error (.keyError "version")

/-- The document part of `BunPlugin._update_version`:
`package["version"] = new_version`. -/
def BunPlugin.update_version_doc (pkg : List (String × Json)) (v : String) :
    List (String × Json) :=
  setK pkg "version" (.str v)

/-- `BunPlugin._update_version`: read package.json, set the version key,
and write `json.dumps(package, indent=2) + "\n"` back. -/
def BunPlugin.update_version (f : BunFs) (v : String) : BunFs :=
  { packageJson := BunPlugin.update_version_doc f.packageJson v
  , text := dumpsTop (BunPlugin.update_version_doc f.packageJson v) ++ "\n" }

/-- `BunPlugin.post_check` on the parsed package.json: bump-kind lookup
(`KeyError` on an unknown kind), then `_get_version`, then the dunamai
parse/bump; produces the `(previous_version, version)` pair written into
`release_info`. No file is written. -/
def BunPlugin.post_check (pkg : List (String × Json)) (release_type : String) :
    Except Err (String × String) :=
  match bump_table release_type with
  | none => .error (.keyError release_type)
  | some i =>
    match BunPlugin.get_version pkg with
    | .error e => .error e
    | .ok (.str s) =>
      match parseSemVer s with
      | none => .error (.valueError s)
      | some ver => .ok (serializeSemVer ver, serializeSemVer (bumpAt ver i))
    | .ok _ => .error .typeError

/-- `BunPlugin.post_prepare`: assert the release version is set, update
package.json, and — only when `bun` is available — run `bun install`
(`subprocess.run(..., check=True)`, whose `CalledProcessError` is not
caught here). `bunAvailable` is the probe result and `installExit` the
exit code `bun install` would return. -/
def BunPlugin.post_prepare (f : BunFs) (version : Option String)
    (bunAvailable : Bool) (installExit : Int) : Except Err BunFs :=
  match version with
  | none => .error .assertionError
  | some v =>
    if bunAvailable then
      if installExit = 0 then .ok (BunPlugin.update_version f v)
      else .error (.calledProcessError ["bun", "install"] installExit)
    else .ok (BunPlugin.update_version f v)

/-- Python `\s` (whitespace class of `re`, ASCII-relevant members). -/
def pySpace (c : Char) : Bool :=
  c = ' ' || c = '\t' || c = '\n' || c = '\r' || c = '\x0b' || c = '\x0c'

/-- The character class `[\d.]` of the version pattern. -/
def digDot (c : Char) : Bool :=
  c.isDigit || c = '.'

/-- The character class `["\']` of the version pattern (a double or a
single quote; 39 is the code of the single quote). -/
def isQuoteChar (c : Char) : Bool :=
  c = '"' || c.toNat = 39

/-- Match a literal character sequence, returning the remainder. -/
def dropLit : List Char → List Char → Option (List Char)
  | [], rest => some rest
  | _ :: _, [] => none
  | p :: ps, c :: cs => if c = p then dropLit ps cs else none

/-- Consume `\s*` (greedy; sound because the next pattern atom is never a
whitespace character). -/
def dropSpaces : List Char → List Char
  | [] => []
  | c :: cs => if pySpace c then dropSpaces cs else c :: cs

/-- After at least one `[\d.]` character: keep consuming `[\d.]` and then
require a closing quote (greedy; sound because a quote is not in `[\d.]`). -/
def afterDigs : List Char → Option (List Char)
  | [] => none
  | c :: cs =>
    if digDot c then afterDigs cs
    else if isQuoteChar c then some cs
    else none

/-- Consume `["\'][\d.]+["\']`, returning the remainder. -/
def takeQuoted : List Char → Option (List Char)
  | [] => none
  | c :: cs =>
    if isQuoteChar c then
      match cs with
      | [] => none
      | d :: ds => if digDot d then afterDigs ds else none
    else none

/-- The literal head `__version__` of the pattern. -/
def verLit : List Char :=
  ['_', '_', 'v', 'e', 'r', 's', 'i', 'o', 'n', '_', '_']

/-- Match the pattern `__version__\s*=\s*["\'][\d.]+["\']` at the start of
the list, returning the remainder after the match. The pattern has no
backtracking points: each greedy class is disjoint from the atom that
follows it. -/
def matchHere (l : List Char) : Option (List Char) :=
  match dropLit verLit l with
  | none => none
  | some r1 =>
    match dropSpaces r1 with
    | [] => none
    | c :: r2 => if c = '=' then takeQuoted (dropSpaces r2) else none

/-- `re.search`: does the pattern match at some position? -/
def hasMatch : List Char → Bool
  | [] => false
  | c :: rest => (matchHere (c :: rest)).isSome || hasMatch rest

/-- Fuelled form of `re.sub`: scan left to right; at a position where the
pattern matches, emit the replacement and resume after the match
(non-overlapping); otherwise emit the character and advance by one. Every
match consumes at least one character, so fuel `l.length` suffices. -/
def subAllF (repl : List Char) : Nat → List Char → List Char
  | 0, l => l
  | _ + 1, [] => []
  | fuel + 1, c :: rest =>
    match matchHere (c :: rest) with
    | some r => repl ++ subAllF repl fuel r
    | none => c :: subAllF repl fuel rest

/-- `re.sub(pattern, repl, content)` for the version pattern. -/
def subAll (repl l : List Char) : List Char :=
  subAllF repl l.length l

/-- The replacement text `__version__ = "<new_version>"`. -/
def canonRepl (newV : String) : List Char :=
  verLit ++ [' ', '='] ++ [' ', '"'] ++ newV.toList ++ ['"']

/-- `UvMonorepoPlugin._update_init_version`, after the config read: get
the package name (`None` and the falsy `""`/`0`/empty-table values mean
"return without doing anything"; calling `.replace` on a truthy non-string
raises `AttributeError`); `initContent` is the text of the first existing
candidate `__init__.py` (`None` when `_find_package_init` finds none); if
`re.search` finds no occurrence of the pattern the function returns
without writing; otherwise it writes the `re.sub` result. The returned
value is the resulting on-disk `__init__.py` content. -/
def UvMonorepoPlugin.update_init_version (config : Table)
    (initContent : Option String) (newV : String) :
    Except Err (Option String) :=
  match UvMonorepoPlugin.get_package_name config with
  | .error e => .error e
  | .ok none => .ok initContent
  | .ok (some (.str name)) =>
    if name = "" then .ok initContent
    else
      match initContent with
      | none => .ok initContent
      | some content =>
        if hasMatch content.toList then
          .ok (some (String.mk (subAll (canonRepl newV) content.toList)))
        else .ok initContent
  | .ok (some (.int n)) => if n = 0 then .ok initContent else .error .attributeError
  | .ok (some (.table t)) =>
    match t with
    | [] => .ok initContent
    | _ :: _ => .error .attributeError

/-- The files `UvMonorepoPlugin.post_prepare` can observe or write: the
package's own pyproject.toml, any root workspace pyproject.toml living
outside the package directory, and the `__init__.py` found by
`_find_package_init` (the content of the first existing candidate path,
`none` when no candidate exists). -/
structure UvFs where
  pyproject : Table
  rootPyproject : Option Table
  initContent : Option String

/-- `UvMonorepoPlugin.post_prepare`: read the package pyproject, assert
the release version is set, update the version via `_update_version`,
write the document back, update the embedded `__version__` literal from
the freshly written document, and — only when `uv` is available — run
`uv lock` (`subprocess.run(..., check=True)`; its `CalledProcessError` is
not caught). `uvAvailable` is the probe result and `lockExit` the exit
code `uv lock` would return. -/
def UvMonorepoPlugin.post_prepare (fs : UvFs) (version : Option String)
    (uvAvailable : Bool) (lockExit : Int) : Except Err UvFs :=
  match version with
  | none => .error .assertionError
  | some v =>
    match UvMonorepoPlugin.update_version fs.pyproject v with
    | .error e => .error e
    | .ok config2 =>
      match UvMonorepoPlugin.update_init_version config2 fs.initContent v with
      | .error e => .error e
      | .ok init2 =>
        if uvAvailable then
          if lockExit = 0 then
            .ok { pyproject := config2
                , rootPyproject := fs.rootPyproject
                , initContent := init2 }
          else .error (.calledProcessError ["uv", "lock"] lockExit)
        else
          .ok { pyproject := config2
              , rootPyproject := fs.rootPyproject
              , initContent := init2 }

/-- The observable result of `subprocess.run` on a command: the process
started and exited with a code, or the executable was not found
(`FileNotFoundError`). -/
inductive ProcResult where
  | exited (code : Int)
  | notFound
  deriving DecidableEq

/-- The outcome of `run_command_in_dir` (identical in `BunPlugin` and
`UvMonorepoPlugin`): `subprocess.run(command, check=True, ...)` raises
`CalledProcessError` on a non-zero exit, which the `except` clause turns
into `CommandFailed(command=command, returncode=e.returncode)`; a
`FileNotFoundError` (executable missing) matches no `except` clause and
propagates as raised. -/
def run_command_in_dir (command : List String) (r : ProcResult) :
    Except Err Unit :=
  match r with
  | .exited c => if c = 0 then .ok () else .error (.commandFailed command c)
  | .notFound => .error (.fileNotFoundError (command.headD ""))

/-- Is a failure the structured `CommandFailed` shape? -/
def isCommandFailed : Except Err Unit → Bool
  | .error (.commandFailed _ _) => true
  | _ => false

/-- A child-process invocation as `run_command_in_dir` issues it:
`subprocess.run(command, check=True, env=os.environ.copy(), cwd=cwd)` —
the argv, the child environment (a copy of the parent environment, with
nothing added or overridden), and the working directory. -/
structure Invocation where
  argv : List String
  env : List (String × String)
  cwd : String
  deriving DecidableEq

/-- The invocation `run_command_in_dir` issues for a command: the child
environment is exactly `os.environ.copy()`, i.e. the ambient environment. -/
def run_command_invocation (command : List String) (cwd : String)
    (ambient : List (String × String)) : Invocation :=
  { argv := command, env := ambient, cwd := cwd }

/-- Python truthiness of an optional string: `None` and `""` are falsy. -/
def truthyS : Option String → Bool
  | none => false
  | some s => !(s = "")

/-- The argv built by `BunPlugin.publish`: `bun publish --access public`,
plus `--registry R` where `R = repository or self.config.registry` when
either is truthy. -/
def BunPlugin.publish_cmd (repository registry_cfg : Option String) :
    List String :=
  if truthyS repository || truthyS registry_cfg then
    ["bun", "publish", "--access", "public"] ++
      ["--registry", (if truthyS repository then repository else registry_cfg).getD ""]
  else ["bun", "publish", "--access", "public"]

/-- `BunPlugin.publish`: build the command and hand it to
`run_command_in_dir`, which runs it with a copy of the ambient
environment (no variable is added for the child). -/
def BunPlugin.publish (package_path : String)
    (registry_cfg repository : Option String)
    (ambient : List (String × String)) : Invocation :=
  run_command_invocation (BunPlugin.publish_cmd repository registry_cfg)
    package_path ambient

/-- The keyword arguments `UvMonorepoPlugin.publish` inspects. -/
structure UvPublishKwargs where
  publish_url : Option String := none
  username : Option String := none
  password : Option String := none
  token : Option String := none
  deriving DecidableEq

/-- `flag value` when the optional value is truthy, else nothing (the
walrus-guarded `additional_args.extend([...])` steps). -/
def optArgs (flag : String) (v : Option String) : List String :=
  if truthyS v then [flag, v.getD ""] else []

/-- The argv built by `UvMonorepoPlugin.publish`: a truthy `repository`
raises `ValueError("Custom repository not yet implemented")` before
anything runs; otherwise the command is `uv publish` followed by the
truthy credential keyword arguments. -/
def UvMonorepoPlugin.publish_cmd (repository : Option String)
    (k : UvPublishKwargs) : Except Err (List String) :=
  if truthyS repository then
    .error (.valueError "Custom repository not yet implemented")
  else
    .ok (["uv", "publish"] ++ optArgs "--publish-url" k.publish_url ++
      optArgs "--username" k.username ++ optArgs "--password" k.password ++
      optArgs "--token" k.token)

/-- `UvMonorepoPlugin.publish`: build the command and hand it to
`run_command_in_dir` (child environment = copy of the ambient
environment). -/
def UvMonorepoPlugin.publish (package_path : String)
    (repository : Option String) (k : UvPublishKwargs)
    (ambient : List (String × String)) : Except Err Invocation :=
  match UvMonorepoPlugin.publish_cmd repository k with
  | .error e => .error e
  | .ok cmd => .ok (run_command_invocation cmd package_path ambient)

/-- `isLeading p q`: the path `p` is an initial segment of the path `q`. -/
def isLeading : List String → List String → Bool
  | [], _ => true
  | _ :: _, [] => false
  | a :: as, b :: bs => if a = b then isLeading as bs else false

/-- Two paths touch when one is an initial segment of the other — exactly
when writing at one can change what is read at the other. -/
def touches (w p : List String) : Bool :=
  isLeading p w || isLeading w p

theorem touches_nil (w : List String) : touches w [] = true := by
  simp [touches, isLeading]

theorem touches_cons (k : String) (w q : List String) :
    touches (k :: w) (k :: q) = touches w q := by
  simp [touches, isLeading]

theorem getPath_cons_set_diff (u : Table) (k a : String) (x : TomlValue)
    (as : List String) (h : a ≠ k) :
    getPath (.table (setK u k x)) (a :: as) = getPath (.table u) (a :: as) := by
  simp only [getPath, getK_setK_diff u k a x h]

theorem getPath_cons_set_same (u : Table) (k : String) (x : TomlValue)
    (as : List String) :
    getPath (.table (setK u k x)) (k :: as) = getPath x as := by
  simp only [getPath, getK_setK_same]

theorem getPath_cons_of_getK (u : Table) (a : String) (y : TomlValue)
    (as : List String) (h : getK u a = some y) :
    getPath (.table u) (a :: as) = getPath y as := by
  simp only [getPath, h]

/-- Case analysis of a successful `_update_version`: either the
`tool.poetry` table was reachable and the version key was written there,
or that lookup raised `KeyError` and the version was written into the
`project` table. -/
theorem update_version_ok_cases (c : Table) (v : String) (c2 : Table)
    (h : UvMonorepoPlugin.update_version c v = .ok c2) :
    (∃ t p, getK c "tool" = some (.table t) ∧ getK t "poetry" = some (.table p) ∧
      c2 = setK c "tool" (.table (setK t "poetry" (.table (setK p "version" (.str v)))))) ∨
    ((getK c "tool" = none ∨
        ∃ t, getK c "tool" = some (.table t) ∧ getK t "poetry" = none) ∧
      ∃ p, getK c "project" = some (.table p) ∧
        c2 = setK c "project" (.table (setK p "version" (.str v)))) := by
  unfold UvMonorepoPlugin.update_version at h
  split at h
  · next t htool =>
    split at h
    · next p hpoe =>
      exact Or.inl ⟨t, p, htool, hpoe, by simpa using h.symm⟩
    · next val hne hpoe => simp at h
    · next hpoe =>
      unfold UvMonorepoPlugin.update_version_fallback at h
      split at h
      · next p hproj =>
        exact Or.inr ⟨Or.inr ⟨t, htool, hpoe⟩, p, hproj, by simpa using h.symm⟩
      · next val hne hproj => simp at h
      · next hproj => simp at h
  · next val hne htool => simp at h
  · next htool =>
    unfold UvMonorepoPlugin.update_version_fallback at h
    split at h
    · next p hproj =>
      exact Or.inr ⟨Or.inl htool, p, hproj, by simpa using h.symm⟩
    · next val hne hproj => simp at h
    · next hproj => simp at h

/-- Round-trip through the written-to location: after a successful
`_update_version`, `_get_version` reads back exactly the string written. -/
theorem update_version_get (c : Table) (v : String) (c2 : Table)
    (h : UvMonorepoPlugin.update_version c v = .ok c2) :
    UvMonorepoPlugin.get_version c2 = .ok (.str v) := by
  rcases update_version_ok_cases c v c2 h with
    ⟨t, p, htool, hpoe, rfl⟩ | ⟨hmiss, p, hproj, rfl⟩
  · unfold UvMonorepoPlugin.get_version
    simp [lookupChain, tomlIndex, getK_setK_same]
  · have htool2 :
        getK (setK c "project" (.table (setK p "version" (.str v)))) "tool"
          = getK c "tool" :=
      getK_setK_diff c "project" "tool" _ (by decide)
    unfold UvMonorepoPlugin.get_version
    rcases hmiss with htool | ⟨t, htool, hpoe⟩
    · simp [lookupChain, tomlIndex, htool2, htool, getK_setK_same]
    · simp [lookupChain, tomlIndex, htool2, htool, hpoe, getK_setK_same]

theorem touches_nil_left (q : List String) : touches [] q = true := by
  simp [touches, isLeading]

/-- Frame property of `_update_version`: exactly one version path is
written (`tool.poetry.version` when reachable, else `project.version`),
it afterwards holds the written string, and every path not touching the
written path reads the same value as before. -/
theorem update_version_frame (c : Table) (v : String) (c2 : Table)
    (h : UvMonorepoPlugin.update_version c v = .ok c2) :
    ∃ w, (w = ["tool", "poetry", "version"] ∨ w = ["project", "version"]) ∧
      getPath (.table c2) w = some (.str v) ∧
      ∀ p, touches w p = false → getPath (.table c2) p = getPath (.table c) p := by
  rcases update_version_ok_cases c v c2 h with
    ⟨t, p, htool, hpoe, rfl⟩ | ⟨hmiss, p, hproj, rfl⟩
  · refine ⟨["tool", "poetry", "version"], Or.inl rfl, ?_, ?_⟩
    · simp [getPath_cons_set_same, getPath, getK_setK_same]
    · intro q hq
      cases q with
      | nil => rw [touches_nil] at hq; cases hq
      | cons a as =>
        by_cases ha : a = "tool"
        · subst ha
          rw [touches_cons] at hq
          rw [getPath_cons_set_same, getPath_cons_of_getK c "tool" _ as htool]
          cases as with
          | nil => rw [touches_nil] at hq; cases hq
          | cons b bs =>
            by_cases hb : b = "poetry"
            · subst hb
              rw [touches_cons] at hq
              rw [getPath_cons_set_same, getPath_cons_of_getK t "poetry" _ bs hpoe]
              cases bs with
              | nil => rw [touches_nil] at hq; cases hq
              | cons d ds =>
                by_cases hd : d = "version"
                · subst hd
                  rw [touches_cons, touches_nil_left] at hq; cases hq
                · exact getPath_cons_set_diff p "version" d _ ds hd
            · exact getPath_cons_set_diff t "poetry" b _ bs hb
        · exact getPath_cons_set_diff c "tool" a _ as ha
  · refine ⟨["project", "version"], Or.inr rfl, ?_, ?_⟩
    · simp [getPath_cons_set_same, getPath, getK_setK_same]
    · intro q hq
      cases q with
      | nil => rw [touches_nil] at hq; cases hq
      | cons a as =>
        by_cases ha : a = "project"
        · subst ha
          rw [touches_cons] at hq
          rw [getPath_cons_set_same, getPath_cons_of_getK c "project" _ as hproj]
          cases as with
          | nil => rw [touches_nil] at hq; cases hq
          | cons d ds =>
            by_cases hd : d = "version"
            · subst hd
              rw [touches_cons, touches_nil_left] at hq; cases hq
            · exact getPath_cons_set_diff p "version" d _ ds hd
        · exact getPath_cons_set_diff c "project" a _ as ha

/-- C3, counterexample. The claim says every failure other than a
non-zero exit — e.g. the executable being entirely missing — is also
normalized into `CommandFailed`. It is false: `run_command_in_dir`
catches only `subprocess.CalledProcessError`, so a missing executable
(`FileNotFoundError`) propagates unnormalized. -/
theorem C3_counterexample :
    run_command_in_dir ["uv", "publish"] .notFound
      = .error (.fileNotFoundError "uv")
    ∧ isCommandFailed (run_command_in_dir ["uv", "publish"] .notFound) = false :=
  ⟨rfl, rfl⟩

/-- C3, amended: a non-zero exit of a started process is normalized into
`CommandFailed` carrying the attempted argv and the exit code, but any
other failure — in particular a missing executable — propagates as the
raw exception (`FileNotFoundError`), not as `CommandFailed`. -/
theorem C3_theorem (command : List String) (c : Int) (hc : c ≠ 0) :
    run_command_in_dir command (.exited c) = .error (.commandFailed command c)
    ∧ run_command_in_dir command .notFound
        = .error (.fileNotFoundError (command.headD "")) := by
  refine ⟨?_, rfl⟩
  simp [run_command_in_dir, hc]

/-- C3, witness at `bun run build` exiting 1. -/
theorem C3_witness :
    (1 : Int) ≠ 0 ∧
      (run_command_in_dir ["bun", "run", "build"] (.exited 1)
          = .error (.commandFailed ["bun", "run", "build"] 1)
        ∧ run_command_in_dir ["bun", "run", "build"] .notFound
            = .error (.fileNotFoundError "bun")) :=
  ⟨by decide, C3_theorem ["bun", "run", "build"] 1 (by decide)⟩

/-- C4, counterexample. The claim says an unrecognized release type makes
the check phase fail with `InvalidReleaseType`. It is false: the bump-kind
dictionary lookup in `post_check` raises a plain `KeyError`. -/
theorem C4_counterexample :
    UvMonorepoPlugin.post_check [] "invalid" = .error (.keyError "invalid")
    ∧ Err.keyError "invalid" ≠ Err.invalidReleaseType :=
  ⟨rfl, by decide⟩

/-- C4, amended: for every release type outside major/minor/patch, both
plugins' `post_check` fail with a `KeyError` carrying that release type;
the failure happens at the bump-kind lookup, before any write
(`post_check` only reads the manifest and returns the two version
strings). -/
theorem C4_theorem (config : Table) (pkg : List (String × Json)) (k : String)
    (h1 : k ≠ "major") (h2 : k ≠ "minor") (h3 : k ≠ "patch") :
    UvMonorepoPlugin.post_check config k = .error (.keyError k)
    ∧ BunPlugin.post_check pkg k = .error (.keyError k) := by
  have hb : bump_table k = none := by simp [bump_table, h1, h2, h3]
  exact ⟨by simp [UvMonorepoPlugin.post_check, hb],
    by simp [BunPlugin.post_check, hb]⟩

/-- C4, witness at release type `"invalid"`. -/
theorem C4_witness :
    "invalid" ≠ "major" ∧ "invalid" ≠ "minor" ∧ "invalid" ≠ "patch" ∧
      (UvMonorepoPlugin.post_check [] "invalid" = .error (.keyError "invalid")
        ∧ BunPlugin.post_check [] "invalid" = .error (.keyError "invalid")) :=
  ⟨by decide, by decide, by decide,
    C4_theorem [] [] "invalid" (by decide) (by decide) (by decide)⟩

/-- C9, counterexample. The claim says each ecosystem's publish command
includes an explicit registry override in place of its default registry
argument. It is false for the Python ecosystem: `UvMonorepoPlugin.publish`
raises `ValueError("Custom repository not yet implemented")` for any
truthy repository override, producing no command at all. -/
theorem C9_counterexample :
    UvMonorepoPlugin.publish_cmd (some "https://test.pypi.org/legacy/")
        ⟨none, none, none, none⟩
      = .error (.valueError "Custom repository not yet implemented") :=
  rfl

/-- C9, amended: the JS-ecosystem publish command includes the override
(`--registry R`, the override taking precedence over the configured
default registry), while the Python-ecosystem publish rejects a
repository override with a `ValueError` (only the `publish_url` keyword
reaches the command line). -/
theorem C9_theorem (registry_cfg : Option String) (r : String) (hr : r ≠ "")
    (k : UvPublishKwargs) :
    BunPlugin.publish_cmd (some r) registry_cfg
      = ["bun", "publish", "--access", "public", "--registry", r]
    ∧ UvMonorepoPlugin.publish_cmd (some r) k
      = .error (.valueError "Custom repository not yet implemented") := by
  have ht : truthyS (some r) = true := by simp [truthyS, hr]
  exact ⟨by simp [BunPlugin.publish_cmd, ht],
    by simp [UvMonorepoPlugin.publish_cmd, ht]⟩

/-- C9, witness: an override against a configured default registry. -/
theorem C9_witness :
    "https://example.org" ≠ "" ∧
      (BunPlugin.publish_cmd (some "https://example.org")
          (some "https://registry.npmjs.org")
        = ["bun", "publish", "--access", "public", "--registry",
            "https://example.org"]
      ∧ UvMonorepoPlugin.publish_cmd (some "https://example.org")
            ⟨none, none, none, none⟩
          = .error (.valueError "Custom repository not yet implemented")) :=
  ⟨by decide, C9_theorem (some "https://registry.npmjs.org")
    "https://example.org" (by decide) ⟨none, none, none, none⟩⟩

theorem optArgs_mem (flag : String) (v : Option String) (x : String)
    (hx : x ∈ optArgs flag v) : x = flag ∨ some x = v := by
  unfold optArgs at hx
  cases v with
  | none => simp [truthyS] at hx
  | some s =>
    by_cases hs : s = ""
    · simp [truthyS, hs] at hx
    · simp [truthyS, hs] at hx
      rcases hx with h | h
      · exact Or.inl h
      · exact Or.inr (by rw [h])

/-- C1, counterexample. The claim says the JS-ecosystem publish goes
through the registry's own publishing client (npm) with a provenance
environment variable set for the child only, and the Python-ecosystem
publish carries an always-trusted-publishing CLI flag. All three parts are
false: the JS publish runs `bun publish --access public` (argv head
`bun`, not `npm`), the child environment is exactly the ambient one (with
an empty ambient environment the child environment is empty, so no
provenance variable is set), and the Python publish command is plain
`uv publish` with no trusted-publishing flag. -/
theorem C1_counterexample :
    (BunPlugin.publish "." none none []).argv
      = ["bun", "publish", "--access", "public"]
    ∧ (BunPlugin.publish "." none none []).argv.headD "" ≠ "npm"
    ∧ (BunPlugin.publish "." none none []).env = []
    ∧ UvMonorepoPlugin.publish "." none ⟨none, none, none, none⟩ []
      = .ok { argv := ["uv", "publish"], env := [], cwd := "." }
    ∧ ¬ ("--trusted-publishing" ∈ (["uv", "publish"] : List String)) :=
  ⟨rfl, by decide, rfl, rfl, by decide⟩

/-- C1, amended: the JS-ecosystem publish is issued through `bun` as
`bun publish --access public …`, with the child environment equal to the
ambient environment (no provenance variable is added), and the
Python-ecosystem publish command without a repository override is
`uv publish` followed only by the caller's credential flags/values — it
contains no trusted-publishing flag. -/
theorem C1_theorem (path : String) (registry_cfg repository : Option String)
    (ambient : List (String × String)) (k : UvPublishKwargs) (l : List String)
    (h : UvMonorepoPlugin.publish_cmd none k = .ok l) :
    (BunPlugin.publish path registry_cfg repository ambient).env = ambient
    ∧ (BunPlugin.publish path registry_cfg repository ambient).argv.take 4
        = ["bun", "publish", "--access", "public"]
    ∧ l.take 2 = ["uv", "publish"]
    ∧ (∀ x ∈ l, x = "uv" ∨ x = "publish" ∨ x = "--publish-url"
        ∨ x = "--username" ∨ x = "--password" ∨ x = "--token"
        ∨ some x = k.publish_url ∨ some x = k.username
        ∨ some x = k.password ∨ some x = k.token) := by
  have hl : l = "uv" :: "publish" ::
      (optArgs "--publish-url" k.publish_url ++
        (optArgs "--username" k.username ++
          (optArgs "--password" k.password ++ optArgs "--token" k.token))) := by
    unfold UvMonorepoPlugin.publish_cmd at h
    simp [truthyS] at h
    exact h.symm
  refine ⟨rfl, ?_, ?_, ?_⟩
  · unfold BunPlugin.publish run_command_invocation BunPlugin.publish_cmd
    split <;> rfl
  · subst hl; rfl
  · subst hl
    intro x hx
    simp only [List.append_assoc, List.cons_append, List.nil_append,
      List.mem_cons, List.mem_append] at hx
    rcases hx with rfl | rfl | hx | hx | hx | hx
    · exact Or.inl rfl
    · exact Or.inr (Or.inl rfl)
    · rcases optArgs_mem _ _ _ hx with rfl | hv
      · exact Or.inr (Or.inr (Or.inl rfl))
      · exact Or.inr (Or.inr (Or.inr (Or.inr (Or.inr (Or.inr (Or.inl hv))))))
    · rcases optArgs_mem _ _ _ hx with rfl | hv
      · exact Or.inr (Or.inr (Or.inr (Or.inl rfl)))
      · exact Or.inr (Or.inr (Or.inr (Or.inr (Or.inr (Or.inr (Or.inr (Or.inl hv)))))))
    · rcases optArgs_mem _ _ _ hx with rfl | hv
      · exact Or.inr (Or.inr (Or.inr (Or.inr (Or.inl rfl))))
      · exact Or.inr (Or.inr (Or.inr (Or.inr (Or.inr (Or.inr (Or.inr (Or.inr (Or.inl hv))))))))
    · rcases optArgs_mem _ _ _ hx with rfl | hv
      · exact Or.inr (Or.inr (Or.inr (Or.inr (Or.inr (Or.inl rfl)))))
      · exact Or.inr (Or.inr (Or.inr (Or.inr (Or.inr (Or.inr (Or.inr (Or.inr (Or.inr hv))))))))

/-- C1, witness at a publish with no overrides and empty ambient
environment. -/
theorem C1_witness :
    UvMonorepoPlugin.publish_cmd none ⟨none, none, none, none⟩
        = .ok ["uv", "publish"] ∧
      ((BunPlugin.publish "." none none []).env = []
        ∧ (BunPlugin.publish "." none none []).argv.take 4
            = ["bun", "publish", "--access", "public"]
        ∧ (["uv", "publish"] : List String).take 2 = ["uv", "publish"]
        ∧ (∀ x ∈ (["uv", "publish"] : List String), x = "uv" ∨ x = "publish"
            ∨ x = "--publish-url" ∨ x = "--username" ∨ x = "--password"
            ∨ x = "--token"
            ∨ some x = (none : Option String) ∨ some x = (none : Option String)
            ∨ some x = (none : Option String) ∨ some x = (none : Option String))) :=
  ⟨rfl, C1_theorem "." none none [] ⟨none, none, none, none⟩ ["uv", "publish"] rfl⟩

/-- C2: for every valid `major.minor.patch` version and bump kind in
major/minor/patch, both plugins' `post_check` resolve a next version that
is strictly greater under semantic-version ordering, with major bumping
the major component and resetting minor and patch, minor bumping minor
and resetting patch, and patch bumping patch only. -/
theorem C2_theorem (config : Table) (pkg : List (String × Json))
    (release_type : String) (i : Nat) (s : String) (ver : SemVer)
    (hb : bump_table release_type = some i)
    (huv : UvMonorepoPlugin.get_version config = .ok (.str s))
    (hbun : BunPlugin.get_version pkg = .ok (.str s))
    (hp : parseSemVer s = some ver) :
    UvMonorepoPlugin.post_check config release_type
      = .ok (serializeSemVer ver, serializeSemVer (bumpAt ver i))
    ∧ BunPlugin.post_check pkg release_type
      = .ok (serializeSemVer ver, serializeSemVer (bumpAt ver i))
    ∧ semVerLt ver (bumpAt ver i)
    ∧ (release_type = "major" → bumpAt ver i = ⟨ver.major + 1, 0, 0⟩)
    ∧ (release_type = "minor" → bumpAt ver i = ⟨ver.major, ver.minor + 1, 0⟩)
    ∧ (release_type = "patch" → bumpAt ver i = ⟨ver.major, ver.minor, ver.patch + 1⟩) := by
  have hi : i = 0 ∨ i = 1 ∨ i = 2 := by
    unfold bump_table at hb
    split_ifs at hb <;> simp_all
  refine ⟨?_, ?_, ?_, ?_, ?_, ?_⟩
  · simp [UvMonorepoPlugin.post_check, hb, huv, hp]
  · simp [BunPlugin.post_check, hb, hbun, hp]
  · rcases hi with rfl | rfl | rfl
    · exact Or.inl (Nat.lt_succ_self _)
    · exact Or.inr ⟨rfl, Or.inl (Nat.lt_succ_self _)⟩
    · exact Or.inr ⟨rfl, Or.inr ⟨rfl, Nat.lt_succ_self _⟩⟩
  · intro he
    rw [he] at hb
    simp [bump_table] at hb
    rw [← hb]
    rfl
  · intro he
    rw [he] at hb
    simp [bump_table] at hb
    rw [← hb]
    rfl
  · intro he
    rw [he] at hb
    simp [bump_table] at hb
    rw [← hb]
    rfl

/-- C2, witness: a patch bump from `1.2.3` in both manifests. -/
theorem C2_witness :
    bump_table "patch" = some 2
    ∧ UvMonorepoPlugin.get_version
        [("project", .table [("version", .str "1.2.3")])] = .ok (.str "1.2.3")
    ∧ BunPlugin.get_version [("version", .str "1.2.3")] = .ok (.str "1.2.3")
    ∧ parseSemVer "1.2.3" = some ⟨1, 2, 3⟩
    ∧ (UvMonorepoPlugin.post_check
          [("project", .table [("version", .str "1.2.3")])] "patch"
        = .ok (serializeSemVer ⟨1, 2, 3⟩, serializeSemVer (bumpAt ⟨1, 2, 3⟩ 2))
      ∧ BunPlugin.post_check [("version", .str "1.2.3")] "patch"
        = .ok (serializeSemVer ⟨1, 2, 3⟩, serializeSemVer (bumpAt ⟨1, 2, 3⟩ 2))
      ∧ semVerLt ⟨1, 2, 3⟩ (bumpAt ⟨1, 2, 3⟩ 2)
      ∧ ("patch" = "major" → bumpAt ⟨1, 2, 3⟩ 2 = ⟨1 + 1, 0, 0⟩)
      ∧ ("patch" = "minor" → bumpAt ⟨1, 2, 3⟩ 2 = ⟨1, 2 + 1, 0⟩)
      ∧ ("patch" = "patch" → bumpAt ⟨1, 2, 3⟩ 2 = ⟨1, 2, 3 + 1⟩)) :=
  ⟨rfl, rfl, rfl, rfl,
    C2_theorem [("project", .table [("version", .str "1.2.3")])]
      [("version", .str "1.2.3")] "patch" 2 "1.2.3" ⟨1, 2, 3⟩ rfl rfl rfl rfl⟩

theorem getPath_cons_inv (y : TomlValue) (a : String) (as : List String)
    (x : TomlValue) (h : getPath y (a :: as) = some x) :
    ∃ kvs z, y = .table kvs ∧ getK kvs a = some z ∧ getPath z as = some x := by
  cases y with
  | str s => cases h
  | int n => cases h
  | table kvs =>
    unfold getPath at h
    cases hg : getK kvs a with
    | none => rw [hg] at h; cases h
    | some z => rw [hg] at h; exact ⟨kvs, z, rfl, hg, h⟩

/-- A successful pure path lookup is a successful subscription chain. -/
theorem lookupChain_of_getPath (ks : List String) (y : TomlValue)
    (x : TomlValue) (h : getPath y ks = some x) : lookupChain y ks = .ok x := by
  induction ks generalizing y with
  | nil =>
    simp [getPath] at h
    subst h
    rfl
  | cons k ks ih =>
    obtain ⟨kvs, z, rfl, h1, h2⟩ := getPath_cons_inv y k ks x h
    simp [lookupChain, tomlIndex, h1]
    exact ih z h2

/-- The `tool.poetry.version` lookup of `_get_version` fails with a
`KeyError` (rather than succeeding or raising `TypeError`): some step of
the chain hits a table that lacks the next key. -/
def poetryVersionMissing (c : Table) : Prop :=
  getK c "tool" = none
  ∨ (∃ t, getK c "tool" = some (.table t) ∧ getK t "poetry" = none)
  ∨ (∃ t p, getK c "tool" = some (.table t) ∧ getK t "poetry" = some (.table p)
      ∧ getK p "version" = none)

theorem poetry_chain_keyError (c : Table) (h : poetryVersionMissing c) :
    ∃ k, lookupChain (.table c) ["tool", "poetry", "version"]
      = .error (.keyError k) := by
  rcases h with h1 | ⟨t, h1, h2⟩ | ⟨t, p, h1, h2, h3⟩
  · exact ⟨"tool", by simp [lookupChain, tomlIndex, h1]⟩
  · exact ⟨"poetry", by simp [lookupChain, tomlIndex, h1, h2]⟩
  · exact ⟨"version", by simp [lookupChain, tomlIndex, h1, h2, h3]⟩

/-- C5, amended: reading the Python-ecosystem version checks
`tool.poetry.version` first and falls back to `project.version` when that
lookup raises `KeyError`; but when neither location exists the read fails
with a plain `KeyError` (naming the first missing key of the fallback
lookup), not with a `VersionFieldNotFound` error. -/
theorem C5_theorem (c : Table) (x y : TomlValue) :
    (getPath (.table c) ["tool", "poetry", "version"] = some x →
      UvMonorepoPlugin.get_version c = .ok x)
    ∧ (poetryVersionMissing c →
        getPath (.table c) ["project", "version"] = some y →
        UvMonorepoPlugin.get_version c = .ok y)
    ∧ (poetryVersionMissing c → getK c "project" = none →
        UvMonorepoPlugin.get_version c = .error (.keyError "project"))
    ∧ (∀ p, poetryVersionMissing c → getK c "project" = some (.table p) →
        getK p "version" = none →
        UvMonorepoPlugin.get_version c = .error (.keyError "version")) := by
  refine ⟨?_, ?_, ?_, ?_⟩
  · intro h
    have h2 := lookupChain_of_getPath _ _ _ h
    unfold UvMonorepoPlugin.get_version
    rw [h2]
  · intro hm h
    obtain ⟨k, hk⟩ := poetry_chain_keyError c hm
    have h2 := lookupChain_of_getPath _ _ _ h
    unfold UvMonorepoPlugin.get_version
    rw [hk]
    simp [h2]
  · intro hm hp
    obtain ⟨k, hk⟩ := poetry_chain_keyError c hm
    unfold UvMonorepoPlugin.get_version
    rw [hk]
    simp [lookupChain, tomlIndex, hp]
  · intro p hm hp hv
    obtain ⟨k, hk⟩ := poetry_chain_keyError c hm
    unfold UvMonorepoPlugin.get_version
    rw [hk]
    simp [lookupChain, tomlIndex, hp, hv]

/-- C5, counterexample. The claim says that when neither version location
holds a string the read fails with `VersionFieldNotFound`; on the empty
document it actually fails with `KeyError("project")`. -/
theorem C5_counterexample :
    UvMonorepoPlugin.get_version [] = .error (.keyError "project")
    ∧ Err.keyError "project" ≠ Err.versionFieldNotFound :=
  ⟨rfl, by decide⟩

/-- C5, witness: on a document with only `project.version`, the poetry
lookup misses and the fallback read returns the project version. -/
theorem C5_witness :
    poetryVersionMissing
        [("project", TomlValue.table [("version", TomlValue.str "1.0.0")])]
    ∧ getPath
        (.table [("project", TomlValue.table [("version", TomlValue.str "1.0.0")])])
        ["project", "version"] = some (.str "1.0.0")
    ∧ UvMonorepoPlugin.get_version
        [("project", TomlValue.table [("version", TomlValue.str "1.0.0")])]
      = .ok (.str "1.0.0") :=
  ⟨Or.inl rfl, rfl,
    (C5_theorem [("project", TomlValue.table [("version", TomlValue.str "1.0.0")])]
      (.str "9") (.str "1.0.0")).2.1 (Or.inl rfl) rfl⟩

/-- C10: when `tool.poetry` exists without a `version` key while
`project.version` exists, `_update_version` creates and writes
`tool.poetry.version` and leaves `project.version` unchanged, so the
document afterwards holds two version fields with different values, and
`_get_version` (which checks `tool.poetry.version` first) returns the new
one. -/
theorem C10_theorem (c : Table) (t p : Table) (old v : String)
    (htool : getK c "tool" = some (.table t))
    (hpoe : getK t "poetry" = some (.table p))
    (hver : getK p "version" = none)
    (hproj : getPath (.table c) ["project", "version"] = some (.str old))
    (hne : old ≠ v) :
    getPath (.table c) ["tool", "poetry", "version"] = none
    ∧ ∃ c2, UvMonorepoPlugin.update_version c v = .ok c2
      ∧ getPath (.table c2) ["tool", "poetry", "version"] = some (.str v)
      ∧ getPath (.table c2) ["project", "version"] = some (.str old)
      ∧ getPath (.table c2) ["tool", "poetry", "version"]
          ≠ getPath (.table c2) ["project", "version"]
      ∧ UvMonorepoPlugin.get_version c2 = .ok (.str v) := by
  have hupd : UvMonorepoPlugin.update_version c v
      = .ok (setK c "tool"
          (.table (setK t "poetry" (.table (setK p "version" (.str v)))))) := by
    simp [UvMonorepoPlugin.update_version, htool, hpoe]
  refine ⟨by simp [getPath, htool, hpoe, hver],
    _, hupd, ?_, ?_, ?_, update_version_get c v _ hupd⟩
  · simp [getPath_cons_set_same, getPath, getK_setK_same]
  · rw [getPath_cons_set_diff c "tool" "project" _ _ (by decide)]
    exact hproj
  · rw [getPath_cons_set_diff c "tool" "project" _ _ (by decide), hproj]
    simp [getPath_cons_set_same, getPath, getK_setK_same]
    intro hc
    exact hne hc.symm

/-- C10, witness: `tool.poetry` empty, `project.version = "1.0.0"`,
new version `"2.0.0"`. -/
theorem C10_witness :
    getK [("tool", TomlValue.table [("poetry", TomlValue.table [])]),
        ("project", TomlValue.table [("version", TomlValue.str "1.0.0")])] "tool"
      = some (.table [("poetry", TomlValue.table [])])
    ∧ getPath (.table [("tool", TomlValue.table [("poetry", TomlValue.table [])]),
        ("project", TomlValue.table [("version", TomlValue.str "1.0.0")])])
        ["tool", "poetry", "version"] = none
    ∧ (∃ c2, UvMonorepoPlugin.update_version
          [("tool", TomlValue.table [("poetry", TomlValue.table [])]),
            ("project", TomlValue.table [("version", TomlValue.str "1.0.0")])]
          "2.0.0" = .ok c2
        ∧ getPath (.table c2) ["tool", "poetry", "version"] = some (.str "2.0.0")
        ∧ getPath (.table c2) ["project", "version"] = some (.str "1.0.0")
        ∧ getPath (.table c2) ["tool", "poetry", "version"]
            ≠ getPath (.table c2) ["project", "version"]
        ∧ UvMonorepoPlugin.get_version c2 = .ok (.str "2.0.0")) :=
  ⟨rfl, C10_theorem
    [("tool", TomlValue.table [("poetry", TomlValue.table [])]),
      ("project", TomlValue.table [("version", TomlValue.str "1.0.0")])]
    [("poetry", TomlValue.table [])] [] "1.0.0" "2.0.0"
    rfl rfl rfl rfl (by decide)⟩

/-- C6: writing a new version into either manifest and immediately
reading it back yields the exact string written; for the TOML manifest
every path not touching the single written version path reads as before;
for the JSON manifest every other top-level key is unchanged and the file
text is the document re-serialized with 2-space indentation plus a
trailing newline. -/
theorem C6_theorem (c : Table) (v : String) (c2 : Table) (f : BunFs)
    (h : UvMonorepoPlugin.update_version c v = .ok c2) :
    UvMonorepoPlugin.get_version c2 = .ok (.str v)
    ∧ (∃ w, (w = ["tool", "poetry", "version"] ∨ w = ["project", "version"]) ∧
        getPath (.table c2) w = some (.str v) ∧
        ∀ p, touches w p = false → getPath (.table c2) p = getPath (.table c) p)
    ∧ BunPlugin.get_version (BunPlugin.update_version f v).packageJson
        = .ok (.str v)
    ∧ (∀ k2, k2 ≠ "version" →
        getK (BunPlugin.update_version f v).packageJson k2
          = getK f.packageJson k2)
    ∧ (BunPlugin.update_version f v).text
        = dumpsTop (BunPlugin.update_version f v).packageJson ++ "\n" := by
  refine ⟨update_version_get c v c2 h, update_version_frame c v c2 h, ?_, ?_, rfl⟩
  · simp [BunPlugin.get_version, BunPlugin.update_version,
      BunPlugin.update_version_doc, getK_setK_same]
  · intro k2 hk2
    simp only [BunPlugin.update_version, BunPlugin.update_version_doc]
    exact getK_setK_diff _ "version" k2 _ hk2

/-- C6, witness: bumping `1.0.0` to `1.1.0` in a concrete pyproject.toml
and package.json. -/
theorem C6_witness :
    UvMonorepoPlugin.update_version
        [("project", TomlValue.table [("version", TomlValue.str "1.0.0")])] "1.1.0"
      = .ok [("project", TomlValue.table [("version", TomlValue.str "1.1.0")])]
    ∧ (UvMonorepoPlugin.get_version
          [("project", TomlValue.table [("version", TomlValue.str "1.1.0")])]
        = .ok (.str "1.1.0")
      ∧ (∃ w, (w = ["tool", "poetry", "version"] ∨ w = ["project", "version"]) ∧
          getPath (.table [("project", TomlValue.table [("version", TomlValue.str "1.1.0")])]) w
            = some (.str "1.1.0") ∧
          ∀ p, touches w p = false →
            getPath (.table [("project", TomlValue.table [("version", TomlValue.str "1.1.0")])]) p
              = getPath (.table [("project", TomlValue.table [("version", TomlValue.str "1.0.0")])]) p)
      ∧ BunPlugin.get_version
          (BunPlugin.update_version
            { packageJson := [("name", .str "docs"), ("version", .str "1.0.0")]
            , text := "" } "1.1.0").packageJson
        = .ok (.str "1.1.0")
      ∧ (∀ k2, k2 ≠ "version" →
          getK (BunPlugin.update_version
              { packageJson := [("name", .str "docs"), ("version", .str "1.0.0")]
              , text := "" } "1.1.0").packageJson k2
            = getK [("name", Json.str "docs"), ("version", Json.str "1.0.0")] k2)
      ∧ (BunPlugin.update_version
            { packageJson := [("name", .str "docs"), ("version", .str "1.0.0")]
            , text := "" } "1.1.0").text
          = dumpsTop (BunPlugin.update_version
              { packageJson := [("name", .str "docs"), ("version", .str "1.0.0")]
              , text := "" } "1.1.0").packageJson ++ "\n") :=
  ⟨rfl, C6_theorem
    [("project", TomlValue.table [("version", TomlValue.str "1.0.0")])] "1.1.0"
    [("project", TomlValue.table [("version", TomlValue.str "1.1.0")])]
    { packageJson := [("name", .str "docs"), ("version", .str "1.0.0")]
    , text := "" } rfl⟩

/-- C7, counterexample. The claim says every pre-existing manifest that
defines a version field — including the root workspace manifest — reports
the new version after a successful prepare pass. It is false:
`post_prepare` writes only the package's own pyproject.toml (and the
embedded literal); no code touches a root manifest. Here the root
manifest defines `project.version = "0.1.0"`, prepare succeeds with new
version `"0.2.0"`, and the root manifest still reports `"0.1.0"`. -/
theorem C7_counterexample :
    UvMonorepoPlugin.post_prepare
        { pyproject := [("project", TomlValue.table
            [("name", TomlValue.str "pkg"), ("version", TomlValue.str "0.1.0")])]
        , rootPyproject := some [("project", TomlValue.table
            [("version", TomlValue.str "0.1.0")])]
        , initContent := none }
        (some "0.2.0") false 0
      = .ok
        { pyproject := [("project", TomlValue.table
            [("name", TomlValue.str "pkg"), ("version", TomlValue.str "0.2.0")])]
        , rootPyproject := some [("project", TomlValue.table
            [("version", TomlValue.str "0.1.0")])]
        , initContent := none }
    ∧ getPath (.table [("project", TomlValue.table
          [("version", TomlValue.str "0.1.0")])]) ["project", "version"]
        = some (.str "0.1.0")
    ∧ ("0.1.0" : String) ≠ "0.2.0" :=
  ⟨rfl, rfl, by decide⟩

/-- C7, amended: after every successful prepare pass, the package's own
manifests report the new version, while the root workspace manifest is
never written at all — it is left exactly as it was, whether or not it
defines a version field (there is no best-effort root update in the
code). -/
theorem C7_theorem (fs : UvFs) (v : String) (uvAvailable : Bool)
    (lockExit : Int) (fs2 : UvFs) (f : BunFs) (bv : String)
    (bunAvailable : Bool) (installExit : Int) (f2 : BunFs)
    (h : UvMonorepoPlugin.post_prepare fs (some v) uvAvailable lockExit = .ok fs2)
    (hb : BunPlugin.post_prepare f (some bv) bunAvailable installExit = .ok f2) :
    UvMonorepoPlugin.get_version fs2.pyproject = .ok (.str v)
    ∧ fs2.rootPyproject = fs.rootPyproject
    ∧ BunPlugin.get_version f2.packageJson = .ok (.str bv) := by
  have hup : f2 = BunPlugin.update_version f bv := by
    unfold BunPlugin.post_prepare at hb
    dsimp only at hb
    split at hb
    · split at hb
      · exact (Except.ok.inj hb).symm
      · cases hb
    · exact (Except.ok.inj hb).symm
  have hf2 : BunPlugin.get_version f2.packageJson = .ok (.str bv) := by
    subst hup
    simp [BunPlugin.get_version, BunPlugin.update_version,
      BunPlugin.update_version_doc, getK_setK_same]
  unfold UvMonorepoPlugin.post_prepare at h
  dsimp only at h
  split at h
  · cases h
  · next config2 heq =>
    split at h
    · cases h
    · next init2 heq2 =>
      have hfs2 : fs2 =
          { pyproject := config2
            , rootPyproject := fs.rootPyproject
            , initContent := init2 } := by
        split at h
        · split at h
          · exact (Except.ok.inj h).symm
          · cases h
        · exact (Except.ok.inj h).symm
      subst hfs2
      exact ⟨update_version_get _ v _ heq, rfl, hf2⟩

/-- C7, witness: a successful prepare for both ecosystems with no root
manifest present and `bun`/`uv` unavailable. -/
theorem C7_witness :
    UvMonorepoPlugin.post_prepare
        { pyproject := [("project", TomlValue.table
            [("version", TomlValue.str "1.2.3")])]
        , rootPyproject := none, initContent := none }
        (some "1.2.4") false 0
      = .ok
        { pyproject := [("project", TomlValue.table
            [("version", TomlValue.str "1.2.4")])]
        , rootPyproject := none, initContent := none }
    ∧ BunPlugin.post_prepare
        { packageJson := [("version", Json.str "1.2.3")], text := "" }
        (some "1.2.4") false 0
      = .ok (BunPlugin.update_version
          { packageJson := [("version", Json.str "1.2.3")], text := "" } "1.2.4")
    ∧ (UvMonorepoPlugin.get_version
          [("project", TomlValue.table [("version", TomlValue.str "1.2.4")])]
        = .ok (.str "1.2.4")
      ∧ (none : Option Table) = none
      ∧ BunPlugin.get_version (BunPlugin.update_version
            { packageJson := [("version", Json.str "1.2.3")], text := "" }
            "1.2.4").packageJson
          = .ok (.str "1.2.4")) :=
  ⟨rfl, rfl, C7_theorem
    { pyproject := [("project", TomlValue.table
        [("version", TomlValue.str "1.2.3")])]
    , rootPyproject := none, initContent := none }
    "1.2.4" false 0
    { pyproject := [("project", TomlValue.table
        [("version", TomlValue.str "1.2.4")])]
    , rootPyproject := none, initContent := none }
    { packageJson := [("version", Json.str "1.2.3")], text := "" }
    "1.2.4" false 0
    (BunPlugin.update_version
      { packageJson := [("version", Json.str "1.2.3")], text := "" } "1.2.4")
    rfl rfl⟩

theorem dropLit_length (p : List Char) :
    ∀ (l r : List Char), dropLit p l = some r → r.length + p.length = l.length := by
  induction p with
  | nil =>
    intro l r h
    simp [dropLit] at h
    subst h
    simp
  | cons a as ih =>
    intro l r h
    cases l with
    | nil => cases h
    | cons d ds =>
      unfold dropLit at h
      by_cases hd : d = a
      · rw [if_pos hd] at h
        have := ih ds r h
        simp only [List.length_cons]
        omega
      · rw [if_neg hd] at h
        cases h

theorem dropSpaces_length (l : List Char) : (dropSpaces l).length ≤ l.length := by
  induction l with
  | nil => simp [dropSpaces]
  | cons c cs ih =>
    unfold dropSpaces
    by_cases h : pySpace c = true
    · rw [if_pos h]
      exact Nat.le_succ_of_le ih
    · rw [if_neg h]

theorem afterDigs_length (l : List Char) :
    ∀ r, afterDigs l = some r → r.length < l.length := by
  induction l with
  | nil => intro r h; cases h
  | cons c cs ih =>
    intro r h
    unfold afterDigs at h
    by_cases hd : digDot c = true
    · rw [if_pos hd] at h
      exact Nat.lt_succ_of_lt (ih r h)
    · rw [if_neg hd] at h
      by_cases hq : isQuoteChar c = true
      · rw [if_pos hq] at h
        cases h
        exact Nat.lt_succ_self _
      · rw [if_neg hq] at h
        cases h

theorem takeQuoted_length (l r : List Char) (h : takeQuoted l = some r) :
    r.length < l.length := by
  cases l with
  | nil => cases h
  | cons c cs =>
    simp only [takeQuoted] at h
    split at h
    · split at h
      · cases h
      · split at h
        · have := afterDigs_length _ r h
          simp only [List.length_cons]
          omega
        · cases h
    · cases h

theorem matchHere_length (l r : List Char) (h : matchHere l = some r) :
    r.length < l.length := by
  unfold matchHere at h
  split at h
  · cases h
  · next r1 hdl =>
    have h1 : r1.length + verLit.length = l.length := dropLit_length verLit l r1 hdl
    split at h
    · cases h
    · next c r2 hds =>
      split at h
      · have h2 := takeQuoted_length _ _ h
        have h4 := dropSpaces_length r2
        have h5 : r2.length + 1 ≤ r1.length := by
          have h6 := dropSpaces_length r1
          rw [hds] at h6
          simpa using h6
        simp only [verLit, List.length_cons, List.length_nil] at h1 h2 ⊢
        omega
      · cases h

theorem subAllF_fuel (repl : List Char) :
    ∀ (f1 : Nat) (l : List Char) (f2 : Nat), l.length ≤ f1 → l.length ≤ f2 →
      subAllF repl f1 l = subAllF repl f2 l := by
  intro f1
  induction f1 with
  | zero =>
    intro l f2 h1 h2
    have hl : l = [] := List.eq_nil_of_length_eq_zero (Nat.le_zero.mp h1)
    subst hl
    cases f2 <;> rfl
  | succ n ih =>
    intro l f2 h1 h2
    cases l with
    | nil => cases f2 <;> rfl
    | cons c rest =>
      cases f2 with
      | zero => simp at h2
      | succ m =>
        cases hm : matchHere (c :: rest) with
        | some r =>
          have hr := matchHere_length _ _ hm
          simp only [List.length_cons] at h1 h2 hr
          simp only [subAllF, hm]
          rw [ih r m (by omega) (by omega)]
        | none =>
          simp only [List.length_cons] at h1 h2
          simp only [subAllF, hm]
          rw [ih rest m (by omega) (by omega)]

theorem hasMatch_append (a rest r : List Char) (hm : matchHere rest = some r) :
    hasMatch (a ++ rest) = true := by
  induction a with
  | nil =>
    cases rest with
    | nil => simp [show matchHere ([] : List Char) = none from rfl] at hm
    | cons c cs => simp [hasMatch, hm]
  | cons c as ih => simp [hasMatch, ih]

/-- `re.sub` leaves every character before the first match untouched. -/
theorem subAll_skip (repl : List Char) (a rest : List Char)
    (hno : ∀ i, i < a.length → matchHere (List.drop i a ++ rest) = none) :
    subAll repl (a ++ rest) = a ++ subAll repl rest := by
  induction a with
  | nil => simp
  | cons c as ih =>
    have h0 : matchHere (c :: (as ++ rest)) = none := by
      have h := hno 0 (by simp)
      simpa using h
    have hShift : ∀ i, i < as.length → matchHere (List.drop i as ++ rest) = none := by
      intro i hi
      have h := hno (i + 1) (by simpa using Nat.succ_lt_succ hi)
      simpa using h
    have hRec := ih hShift
    show subAllF repl (c :: as ++ rest).length (c :: as ++ rest)
      = (c :: as) ++ subAll repl rest
    simp only [List.cons_append, List.length_cons]
    simp only [subAllF, h0]
    exact congrArg (c :: ·) hRec

/-- `re.sub` replaces a whole match by the replacement and continues
after it. -/
theorem subAll_match (repl rest r : List Char) (hm : matchHere rest = some r) :
    subAll repl rest = repl ++ subAll repl r := by
  cases rest with
  | nil => simp [show matchHere ([] : List Char) = none from rfl] at hm
  | cons c cs =>
    have hr := matchHere_length _ _ hm
    show subAllF repl (c :: cs).length (c :: cs) = repl ++ subAll repl r
    simp only [List.length_cons]
    simp only [subAllF, hm]
    congr 1
    exact subAllF_fuel repl cs.length r r.length
      (by simp only [List.length_cons] at hr; omega) (Nat.le_refl _)

/-- C8, amended: syncing the embedded version literal is a silent no-op
when the init file is absent or no text matches the pattern; when the
pattern does match, the whole matched assignment — its spacing and quote
style included — is replaced by the canonical `__version__ = "<new>"`
text, every character before the match is preserved, and substitution
continues after the matched region. (The original claim's "replaces only
the quoted value, preserving the rest of the line" fails: the
replacement normalizes the assignment's spacing and quotes.) -/
theorem C8_theorem (config : Table) (name v : String)
    (hn : UvMonorepoPlugin.get_package_name config = .ok (some (.str name)))
    (hne : name ≠ "") :
    UvMonorepoPlugin.update_init_version config none v = .ok none
    ∧ (∀ content : String, hasMatch content.toList = false →
        UvMonorepoPlugin.update_init_version config (some content) v
          = .ok (some content))
    ∧ (∀ (content : String) (a rest r : List Char),
        content.toList = a ++ rest →
        (∀ i, i < a.length → matchHere (List.drop i a ++ rest) = none) →
        matchHere rest = some r →
        UvMonorepoPlugin.update_init_version config (some content) v
          = .ok (some (String.mk (a ++ (canonRepl v ++ subAll (canonRepl v) r))))) := by
  refine ⟨?_, ?_, ?_⟩
  · simp [UvMonorepoPlugin.update_init_version, hn, hne]
  · intro content hcm
    have hcm2 : hasMatch content.data = false := hcm
    simp [UvMonorepoPlugin.update_init_version, hn, hne, hcm2]
  · intro content a rest r hsplit hno hm
    have hasM : hasMatch content.data = true := by
      show hasMatch content.toList = true
      rw [hsplit]
      exact hasMatch_append a rest r hm
    have hsub : subAll (canonRepl v) content.data
        = a ++ (canonRepl v ++ subAll (canonRepl v) r) := by
      show subAll (canonRepl v) content.toList
        = a ++ (canonRepl v ++ subAll (canonRepl v) r)
      rw [hsplit, subAll_skip _ _ _ hno, subAll_match _ _ _ hm]
    simp [UvMonorepoPlugin.update_init_version, hn, hne, hasM, hsub]

/-- C8, counterexample. On the line `__version__="1.2.3"` (no spaces
around `=`), the code rewrites the whole assignment to
`__version__ = "9.9.9"` — it does not preserve the rest of the line
around the quoted value as the claim states (the claim predicts
`__version__="9.9.9"`). -/
theorem C8_counterexample :
    UvMonorepoPlugin.update_init_version
        [("project", TomlValue.table [("name", TomlValue.str "pkg")])]
        (some "__version__=\"1.2.3\"\n") "9.9.9"
      = .ok (some "__version__ = \"9.9.9\"\n")
    ∧ ("__version__ = \"9.9.9\"\n" : String) ≠ "__version__=\"9.9.9\"\n" :=
  ⟨rfl, by decide⟩

/-- C8, witness: a package named `pkg` in `project.name`. -/
theorem C8_witness :
    UvMonorepoPlugin.get_package_name
        [("project", TomlValue.table [("name", TomlValue.str "pkg")])]
      = .ok (some (.str "pkg"))
    ∧ ("pkg" : String) ≠ ""
    ∧ (UvMonorepoPlugin.update_init_version
          [("project", TomlValue.table [("name", TomlValue.str "pkg")])]
          none "2.0.0" = .ok none
      ∧ (∀ content : String, hasMatch content.toList = false →
          UvMonorepoPlugin.update_init_version
            [("project", TomlValue.table [("name", TomlValue.str "pkg")])]
            (some content) "2.0.0" = .ok (some content))
      ∧ (∀ (content : String) (a rest r : List Char),
          content.toList = a ++ rest →
          (∀ i, i < a.length → matchHere (List.drop i a ++ rest) = none) →
          matchHere rest = some r →
          UvMonorepoPlugin.update_init_version
            [("project", TomlValue.table [("name", TomlValue.str "pkg")])]
            (some content) "2.0.0"
            = .ok (some (String.mk
                (a ++ (canonRepl "2.0.0" ++ subAll (canonRepl "2.0.0") r)))))) :=
  ⟨rfl, by decide,
    C8_theorem [("project", TomlValue.table [("name", TomlValue.str "pkg")])]
      "pkg" "2.0.0" rfl (by decide)⟩
